import Mathlib

/-!
Verification development for the credential issuance and verification
subsystem of the chat auth server: password hashing and verification
(`hashing_handler`, `verification_handler`), signed-token generation
(`generate_tokens`), auxiliary-cookie derivation, cookie deployment
(`deploy_auth_cookie`) and startup configuration validation
(`AppConfig.validate`).

The Rust source is shallowly embedded:
* machine integers are `Nat`/`Int` with explicit wrap-around (`% 2^64`)
  where the source performs `as` casts;
* `chrono`/`time` durations and checked timestamp arithmetic are modelled
  by `Option Int` computations with the crates' documented bounds;
* a Rust panic (`unwrap`/`expect`) is the `none` of an outer `Option`;
* fallible operations return `Except`;
* the Argon2 digest primitive (an external crate) is a parameter
  `d : String → String → String` (password → salt → digest string); the
  PHC string rendering and parsing around it are modelled concretely;
* the HMAC-signed JWT is idealized as a record pairing the claims with the
  signing key; decoding checks key equality (EUF-CMA idealization of the
  three-segment wire format);
* `tokio::task::spawn_blocking` dispatch structure is recorded by the
  `Comp` type: `Comp.offload` marks work sent to the blocking worker pool,
  `Comp.ret` marks work run inline on the calling async thread.
-/

deriving instance DecidableEq for Except

/-! ## Machine integer semantics -/

/-- The Rust `u64 as i64` cast: two's-complement reinterpretation. -/
def u64ToI64 (n : Nat) : Int :=
  if n % 2 ^ 64 < 2 ^ 63 then ((n % 2 ^ 64 : Nat) : Int)
  else ((n % 2 ^ 64 : Nat) : Int) - 2 ^ 64

/-- The Rust `i64 as usize` cast on a 64-bit target: wrap into `[0, 2^64)`. -/
def i64ToUsize (x : Int) : Nat := (x % 2 ^ 64).toNat

/-- Wrap an integer into the `i64` range (release-profile wrapping arithmetic). -/
def i64Wrap (x : Int) : Int := (x + 2 ^ 63) % 2 ^ 64 - 2 ^ 63

/-- Rust `i64::checked_mul`: `none` when the product leaves the `i64` range. -/
def checkedMulI64 (a b : Int) : Option Int :=
  if -(2 ^ 63) ≤ a * b ∧ a * b ≤ 2 ^ 63 - 1 then some (a * b) else none

/-! ## chrono time model

`Utc::now()` is modelled by a `clock : Nat → Int` giving the timestamp of
the n-th `now()` call of a `generate_tokens` invocation, in source order.
-/

/-- Bound (in whole seconds) of a `chrono::Duration`: `i64::MAX` milliseconds. -/
def chronoSecsBound : Int := 9223372036854775

/-- Timestamp of `chrono::MAX_UTC` (the largest representable `DateTime<Utc>`). -/
def chronoMaxTimestamp : Int := 8210266876799

/-- Timestamp of `chrono::MIN_UTC` (the smallest representable `DateTime<Utc>`). -/
def chronoMinTimestamp : Int := -8334601228800

/-- `chrono::Duration::hours h` in whole seconds; `none` models the panic on
a duration outside the representable range (the crate's `try_hours`:
a checked multiplication by 3600 followed by the seconds-range check). -/
def durationHoursSecs (h : Int) : Option Int :=
  match checkedMulI64 h 3600 with
  | none => none
  | some s => if -chronoSecsBound ≤ s ∧ s ≤ chronoSecsBound then some s else none

/-- `chrono::Duration::minutes m` in whole seconds; `none` models the panic. -/
def durationMinutesSecs (m : Int) : Option Int :=
  match checkedMulI64 m 60 with
  | none => none
  | some s => if -chronoSecsBound ≤ s ∧ s ≤ chronoSecsBound then some s else none

/-- `DateTime::checked_add_signed`: `none` when the result leaves the
representable `DateTime<Utc>` range. Datetimes are identified with their
whole-second timestamps. -/
def checkedAddSigned (t s : Int) : Option Int :=
  if chronoMinTimestamp ≤ t + s ∧ t + s ≤ chronoMaxTimestamp then some (t + s) else none

/-- One expiry computation of `generate_tokens`:
`Utc::now().checked_add_signed(dur).unwrap().timestamp() as usize`.
The outer `Option` is `none` exactly when the source would panic (either in
the `Duration` constructor or in the `unwrap`). -/
def expiryTimestamp (now : Int) (dur : Option Int) : Option Nat :=
  match dur with
  | none => none
  | some s =>
    match checkedAddSigned now s with
    | none => none
    | some t => some (i64ToUsize t)

/-! ## Configuration data model (`load_config.rs`) -/

structure AppSection where
  name : String
  environment : Option String
deriving DecidableEq, Repr

structure ClientIntegrationsSection where
  allow_access_middleware : Bool
  allow_sessions_middleware : Bool
  allow_logging_middleware : Bool
  allow_request_timeout_middleware : Bool
  allow_admin_routes_protector_middleware : Bool
deriving DecidableEq, Repr

structure ObservabilitySection where
  enable_tracing : Bool
  enable_metrics : Bool
deriving DecidableEq, Repr

structure ServerSection where
  host : String
  port : Nat
  request_timeout_secs : Nat
deriving DecidableEq, Repr

structure DatabaseSection where
  engine : String
  host : String
  port : Nat
  user : Option String
  password : Option String
  name : String
  max_connections : Nat
  connect_timeout_secs : Nat
deriving DecidableEq, Repr

structure AuthSection where
  jwt_secret : String
  jwt_access_expiration_time_in_hours : Nat
  jwt_refresh_expiration_time_in_hours : Nat
  jwt_one_time_password_lifetime_in_minutes : Nat
deriving DecidableEq, Repr

structure AppConfig where
  app : AppSection
  client_integrations : ClientIntegrationsSection
  observability : ObservabilitySection
  server : Option ServerSection
  database : Option DatabaseSection
  auth : Option AuthSection
deriving DecidableEq, Repr

inductive ConfigError where
  | MissingAppName
  | InvalidServerPort
  | MissingServerSection
  | MissingDatabaseSection
  | MissingDatabaseName
  | MissingDatabaseUser
  | MissingDatabasePassword
  | MissingAuthSection
  | MissingJwtSecret
deriving DecidableEq, Repr

/-- Rust's `s.trim().is_empty()`: the string has no non-whitespace
character. -/
def trimIsEmpty (s : String) : Bool := s.data.all Char.isWhitespace

/-- `AppConfig::validate` from `load_config.rs`: the startup-time
configuration checks, in source order. -/
def AppConfig.validate (c : AppConfig) : Except ConfigError Unit :=
  if trimIsEmpty c.app.name then .error .MissingAppName
  else
    match c.server with
    | none => .error .MissingServerSection
    | some server =>
      if server.port = 0 then .error .InvalidServerPort
      else
        match c.database with
        | none => .error .MissingDatabaseSection
        | some database =>
          if trimIsEmpty database.name then .error .MissingDatabaseName
          else if database.user = none then .error .MissingDatabaseUser
          else if database.password = none then .error .MissingDatabasePassword
          else
            match c.auth with
            | none => .error .MissingAuthSection
            | some auth =>
              if trimIsEmpty auth.jwt_secret then .error .MissingJwtSecret
              else .ok ()

/-! ## Password hashing and verification
(`hashing_handler.rs`, `verification_handler.rs`)

The Argon2 digest primitive is the parameter `d : String → String → String`
(input string → salt → digest string, both in their textual encodings).
-/

/-- Model of `argon2::password_hash::Error`; only the variants this
subsystem can produce are distinguished: `Password` (the catch-all the
source maps a `spawn_blocking` join failure to) and `PhcStringInvalid`
(any parse failure of a stored PHC hash string, the spec's
`InvalidHashFormat`). -/
inductive PwError where
  | Password
  | PhcStringInvalid
deriving DecidableEq, Repr

/-- Dispatch structure of an `async fn` body: `offload` is work wrapped in
`tokio::task::spawn_blocking` (executed on the bounded blocking worker
pool, with the caller awaiting the join handle), `ret` is work run inline
on the thread multiplexing concurrent request I/O. -/
inductive Comp (α : Type) where
  | ret : α → Comp α
  | offload : (Unit → α) → Comp α

/-- The value a `Comp` produces (join errors of the blocking pool are
external faults and not modelled). -/
def Comp.run : {α : Type} → Comp α → α
  | _, .ret a => a
  | _, .offload f => f ()

/-- Whether the computation's CPU work is dispatched to the blocking
worker pool rather than run inline on the I/O-multiplexing thread. -/
def Comp.offloadsToBlockingPool : {α : Type} → Comp α → Bool
  | _, .ret _ => false
  | _, .offload _ => true

/-- Parameter string of `Argon2::default()` (Argon2id v19 defaults) as it
appears inside the emitted PHC hash string. -/
def phcParamsStr : String := "m=19456,t=2,p=1"

/-- The PHC string emitted by `argon2.hash_password(...).to_string()` for a
given salt encoding and digest encoding: `$argon2id$v=19$<params>$<salt>$<digest>`. -/
def phcRender (salt digest : String) : String :=
  "$argon2id$v=19$" ++ phcParamsStr ++ "$" ++ salt ++ "$" ++ digest

/-- `hashing_handler`: generates a hash of the input inside a
`spawn_blocking` closure. The fresh random salt drawn by the closure is the
explicit parameter `salt`. -/
def hashing_handler (d : String → String → String) (string_to_hash : String)
    (salt : String) : Comp (Except PwError String) :=
  Comp.offload (fun _ => Except.ok (phcRender salt (d string_to_hash salt)))

/-- The value produced by a `hashing_handler` call. -/
def hashingRun (d : String → String → String) (string_to_hash salt : String) :
    Except PwError String :=
  (hashing_handler d string_to_hash salt).run

/-- Split a character list on every occurrence of `c` (the field structure
of a `$`-separated PHC string). -/
def splitOnChar (c : Char) : List Char → List (List Char)
  | [] => [[]]
  | x :: xs =>
    if x = c then [] :: splitOnChar c xs
    else
      match splitOnChar c xs with
      | [] => [[x]]
      | f :: t => (x :: f) :: t

/-- A parsed PHC hash string: algorithm identity, version, cost
parameters, salt and digest (the spec's self-describing hash string). -/
structure PhcHash where
  alg : String
  version : String
  params : String
  salt : String
  digest : String
deriving DecidableEq, Repr

/-- Model of `PasswordHash::new`: parse the `$`-separated self-describing
hash string; `none` is a malformed string (the source's `InvalidHashFormat`
outcome). The grammar is the five-field form this subsystem's hasher
emits, with a non-empty algorithm identifier. -/
def parsePhc (s : String) : Option PhcHash :=
  match splitOnChar '$' s.data with
  | [[], alg, version, params, salt, digest] =>
    if alg = [] then none
    else some ⟨⟨alg⟩, ⟨version⟩, ⟨params⟩, ⟨salt⟩, ⟨digest⟩⟩
  | _ => none

/-- `verification_handler`: parses the stored hash (`?` propagates the
parse failure), then recomputes the digest with the parsed salt and
compares; any verification error is collapsed to `false` by the source's
`.is_ok()`. Runs inline — the body contains no `spawn_blocking`. -/
def verification_handler (d : String → String → String)
    (string_to_compare hashed_string : String) : Comp (Except PwError Bool) :=
  Comp.ret
    (match parsePhc hashed_string with
     | none => Except.error PwError.PhcStringInvalid
     | some p => Except.ok (p.alg == "argon2id" && d string_to_compare p.salt == p.digest))

/-- The value produced by a `verification_handler` call. -/
def verificationRun (d : String → String → String)
    (string_to_compare hashed_string : String) : Except PwError Bool :=
  (verification_handler d string_to_compare hashed_string).run

/-! ## Token generation (`generate_tokens.rs`) -/

/-- JWT claims payload. -/
structure Claims where
  id : Int
  email : String
  exp : Nat
  iat : Nat
deriving DecidableEq, Repr

/-- Simplified user projection for token generation. -/
structure User where
  id : Int
  email : String
deriving DecidableEq, Repr

/-- An encoded JWT, idealized: the three-segment wire format is abstracted
to the algorithm declared by the header, the claims payload, and the
secret the HMAC signature binds. -/
structure Jwt where
  alg : String
  claims : Claims
  signedWith : String
deriving DecidableEq, Repr

/-- `jsonwebtoken::encode` with `Header::default()` (HS256) — total, since
HS256 signing of serializable claims with a byte-slice key cannot fail. -/
def encodeJwt (claims : Claims) (secret : String) : Jwt :=
  ⟨"HS256", claims, secret⟩

/-- `jsonwebtoken::decode` under a secret: the signature check succeeds
exactly when the verifying secret is the signing secret (EUF-CMA
idealization of HMAC). -/
def decodeJwt (secret : String) (t : Jwt) : Option Claims :=
  if t.signedWith = secret then some t.claims else none

inductive JwtError where
  | Jwt
  | Hashing (e : PwError)
  | MissingAuth
  | InvalidTokenType (t : String)
deriving DecidableEq, Repr

/-- Container for generated tokens and cookies. -/
structure Tokens where
  access_token : Option Jwt
  refresh_token : Option Jwt
  one_time_password_token : Option Jwt
  auth_cookie : Option String
deriving DecidableEq, Repr

/-- The auth cookie value built at `generate_tokens.rs:127`:
fixed tag `rusty_chat`, fixed delimiter `____`, the two freshly salted
hash strings. -/
def auth_cookie_value (partA partB : String) : String :=
  "rusty_chat____" ++ partA ++ "____" ++ partB

/-- `generate_tokens`. `clock n` is the timestamp returned by the n-th
`Utc::now()` call of the invocation in source order (0–2: the three expiry
computations, run before the kind dispatch; 3: first claims `iat`;
4: refresh claims `iat`). `d` is the Argon2 digest primitive and
`saltA`/`saltB` the fresh salts drawn by the two `hashing_handler` calls
of the auth-cookie derivation. The outer `Option` is `none` exactly when
the source panics (expiry-arithmetic `unwrap`). -/
def generate_tokens (clock : Nat → Int) (d : String → String → String)
    (saltA saltB : String) (token_type : String) (user : User)
    (config : AppConfig) : Option (Except JwtError Tokens) :=
  match config.auth with
  | none => some (.error .MissingAuth)
  | some auth =>
    match expiryTimestamp (clock 0)
        (durationHoursSecs (u64ToI64 auth.jwt_access_expiration_time_in_hours)) with
    | none => none
    | some access_token_expiration =>
      match expiryTimestamp (clock 1)
          (durationHoursSecs (u64ToI64 auth.jwt_refresh_expiration_time_in_hours)) with
      | none => none
      | some refresh_token_expiration =>
        match expiryTimestamp (clock 2)
            (durationMinutesSecs (u64ToI64 auth.jwt_one_time_password_lifetime_in_minutes)) with
        | none => none
        | some otp_token_expiration =>
          if token_type = "auth" then
            let access_claims : Claims :=
              ⟨user.id, user.email, access_token_expiration, i64ToUsize (clock 3)⟩
            let access_token := encodeJwt access_claims auth.jwt_secret
            let refresh_claims : Claims :=
              ⟨user.id, user.email, refresh_token_expiration, i64ToUsize (clock 4)⟩
            let refresh_token := encodeJwt refresh_claims auth.jwt_secret
            match hashingRun d user.email saltA with
            | .error e => some (.error (.Hashing e))
            | .ok partA =>
              match hashingRun d auth.jwt_secret saltB with
              | .error e => some (.error (.Hashing e))
              | .ok partB =>
                some (.ok ⟨some access_token, some refresh_token, none,
                  some (auth_cookie_value partA partB)⟩)
          else if token_type = "one_time_password" then
            let otp_claims : Claims :=
              ⟨user.id, user.email, otp_token_expiration, i64ToUsize (clock 3)⟩
            some (.ok ⟨none, none, some (encodeJwt otp_claims auth.jwt_secret), none⟩)
          else some (.error (.InvalidTokenType token_type))

/-! ## Cookie deployment (`cookie_deploy_handler.rs`) -/

inductive SameSiteM where
  | strict
  | lax
  | nonePolicy
deriving DecidableEq, Repr

/-- The cookie directive built by `deploy_auth_cookie`. `Cookie::new`
leaves every attribute unset; the setters below fill them in. `max_age`
holds the `time::Duration` in whole seconds. -/
structure CookieM where
  name : String
  value : String
  path : Option String
  http_only : Bool
  secure : Bool
  same_site : Option SameSiteM
  max_age_secs : Option Int
deriving DecidableEq, Repr

/-- `deploy_auth_cookie`: builds the cookie added to the `Cookies` jar.
`none` models the panic of `.expect("AUTH CONFIGURATION IS MISSING!")`
when the config has no auth section. `Max-Age` is
`time::Duration::hours(refresh as i64)` — the `u64 → i64` cast wraps and
the multiplication by 3600 uses release-profile wrapping `i64`
arithmetic. -/
def deploy_auth_cookie (cookie_value : String) (config : AppConfig) :
    Option CookieM :=
  match config.auth with
  | none => none
  | some auth =>
    let is_dev := config.app.environment.getD "production" == "development"
    some
      { name := "rusty_chat_auth_cookie"
        value := cookie_value
        path := some "/"
        http_only := true
        secure := !is_dev
        same_site := some .lax
        max_age_secs :=
          some (i64Wrap (u64ToI64 auth.jwt_refresh_expiration_time_in_hours * 3600)) }

/-! ## Concrete fixtures -/

/-- The auth section of the repository's test `mock_config`. -/
def authW : AuthSection := ⟨"test_secret", 1, 24, 5⟩

def clientIntegrationsW : ClientIntegrationsSection := ⟨true, true, true, true, true⟩

def observabilityW : ObservabilitySection := ⟨false, false⟩

/-- The repository's test `mock_config`. -/
def cfgW : AppConfig :=
  ⟨⟨"test_app", some "test"⟩, clientIntegrationsW, observabilityW, none, none, some authW⟩

/-- `mock_config` with the auth section removed. -/
def cfgNoAuth : AppConfig :=
  ⟨⟨"test_app", some "test"⟩, clientIntegrationsW, observabilityW, none, none, none⟩

/-- An auth section whose access expiry (`10^15` hours) overflows the
`chrono::Duration` seconds bound. -/
def authBigExpiry : AuthSection := ⟨"secret", 10 ^ 15, 24, 5⟩

/-- A fully populated configuration that passes `AppConfig.validate` but
carries the pathological access expiry of `authBigExpiry`. -/
def cfgBigExpiry : AppConfig :=
  ⟨⟨"Test App", some "development"⟩, clientIntegrationsW, observabilityW,
    some ⟨"127.0.0.1", 8080, 60⟩,
    some ⟨"postgres", "localhost", 5432, some "test", some "pass", "db", 5, 3⟩,
    some authBigExpiry⟩

/-- `mock_config` with the access expiry set to `u64::MAX` hours (its
`i64` cast wraps to `-1`). -/
def cfgWrapAccess : AppConfig :=
  ⟨⟨"test_app", some "test"⟩, clientIntegrationsW, observabilityW, none, none,
    some ⟨"test_secret", 2 ^ 64 - 1, 24, 5⟩⟩

/-- `mock_config` with the refresh expiry set to `u64::MAX` hours. -/
def cfgHugeRefresh : AppConfig :=
  ⟨⟨"test_app", some "test"⟩, clientIntegrationsW, observabilityW, none, none,
    some ⟨"test_secret", 1, 2 ^ 64 - 1, 5⟩⟩

/-- Scenario D configuration: development environment, 24 h refresh expiry. -/
def cfgDev : AppConfig :=
  ⟨⟨"test_app", some "development"⟩, clientIntegrationsW, observabilityW, none, none,
    some authW⟩

/-- Scenario D configuration with a production environment flag. -/
def cfgProd : AppConfig :=
  ⟨⟨"test_app", some "production"⟩, clientIntegrationsW, observabilityW, none, none,
    some authW⟩

/-- The test user of the repository's token tests. -/
def userW : User := ⟨1, "test@example.com"⟩

/-- A constant clock: every `Utc::now()` call of an invocation reads the
same second. -/
def clockW : Nat → Int := fun _ => 1700000000

/-- A concrete stand-in digest primitive for witnesses: input and salt
concatenated. Witness salts and inputs are chosen so its outputs contain
neither `$` nor `_`. -/
def dW : String → String → String := fun p s => p ++ s

example : (expiryTimestamp (clockW 0) (durationHoursSecs (u64ToI64 1))).isSome := by decide

example : generate_tokens clockW dW "saltA" "saltB" "one_time_password" userW cfgW =
    some (.ok ⟨none, none,
      some (encodeJwt ⟨1, "test@example.com", 1700000300, 1700000000⟩ "test_secret"), none⟩) := by
  decide

example : AppConfig.validate cfgBigExpiry = .ok () := by decide

example : durationHoursSecs (u64ToI64 (10 ^ 15)) = none := by decide

example : generate_tokens clockW dW "sa" "sb" "auth" userW cfgBigExpiry = none := by decide

example : (deploy_auth_cookie "abc" cfgNoAuth).isSome = false := by decide

/-! ## Lemmas about PHC strings -/

theorem splitOnChar_of_not_mem {c : Char} {l : List Char} (h : c ∉ l) :
    splitOnChar c l = [l] := by
  induction l with
  | nil => rfl
  | cons x xs ih =>
    have hx : ¬x = c := fun hc => h (hc ▸ List.mem_cons_self x xs)
    have hxs : c ∉ xs := fun hc => h (List.mem_cons_of_mem x hc)
    simp [splitOnChar, hx, ih hxs]

theorem splitOnChar_append {c : Char} {l r : List Char} (h : c ∉ l) :
    splitOnChar c (l ++ c :: r) = l :: splitOnChar c r := by
  induction l with
  | nil => simp [splitOnChar]
  | cons x xs ih =>
    have hx : ¬x = c := fun hc => h (hc ▸ List.mem_cons_self x xs)
    have hxs : c ∉ xs := fun hc => h (List.mem_cons_of_mem x hc)
    simp [splitOnChar, hx, ih hxs]

theorem string_data_inj {s t : String} (h : s.data = t.data) : s = t := by
  cases s; cases t
  exact congrArg String.mk h

theorem phcRender_data (salt digest : String) :
    (phcRender salt digest).data =
      '$' :: ("argon2id".data ++ '$' :: ("v=19".data ++ '$' ::
        (phcParamsStr.data ++ '$' :: (salt.data ++ '$' :: digest.data)))) := by
  have h1 : ("$argon2id$v=19$" ++ phcParamsStr).data =
      '$' :: ("argon2id".data ++ '$' :: ("v=19".data ++ '$' :: phcParamsStr.data)) := by
    decide
  simp [phcRender, String.data_append, h1]

/-- Parsing a rendered PHC hash string recovers its fields, provided the
salt and digest encodings contain no `$` (true of the base64 alphabet the
crate emits). -/
theorem parsePhc_phcRender {salt digest : String}
    (hs : '$' ∉ salt.data) (hd : '$' ∉ digest.data) :
    parsePhc (phcRender salt digest) =
      some ⟨"argon2id", "v=19", phcParamsStr, salt, digest⟩ := by
  have halg : ('$' : Char) ∉ "argon2id".data := by decide
  have hver : ('$' : Char) ∉ "v=19".data := by decide
  have hpar : ('$' : Char) ∉ phcParamsStr.data := by decide
  have hsplit : splitOnChar '$' (phcRender salt digest).data =
      [[], "argon2id".data, "v=19".data, phcParamsStr.data, salt.data, digest.data] := by
    rw [phcRender_data]
    show splitOnChar '$' ([] ++ '$' :: _) = _
    rw [splitOnChar_append (by simp), splitOnChar_append halg, splitOnChar_append hver,
      splitOnChar_append hpar, splitOnChar_append hs, splitOnChar_of_not_mem hd]
  unfold parsePhc
  rw [hsplit]
  rfl

/-- Two lists agreeing up to the first occurrence of a separator character
coincide: if neither head part contains `c`, splitting at the first `c` is
unambiguous. -/
theorem append_sep_inj {c : Char} {a1 a2 r1 r2 : List Char}
    (h1 : c ∉ a1) (h2 : c ∉ a2) (he : a1 ++ c :: r1 = a2 ++ c :: r2) :
    a1 = a2 ∧ r1 = r2 := by
  induction a1 generalizing a2 with
  | nil =>
    cases a2 with
    | nil => simpa using he
    | cons y ys =>
      exfalso
      have : c = y := by simpa using congrArg (fun l => l.headI) he
      exact h2 (this ▸ List.mem_cons_self y ys)
  | cons x xs ih =>
    cases a2 with
    | nil =>
      exfalso
      have : x = c := by simpa using congrArg (fun l => l.headI) he
      exact h1 (this ▸ List.mem_cons_self x xs)
    | cons y ys =>
      have hx : x = y := by simpa using congrArg (fun l => l.headI) he
      have htail : xs ++ c :: r1 = ys ++ c :: r2 := by
        simpa [hx] using congrArg List.tail he
      have hxs : c ∉ xs := fun hc => h1 (List.mem_cons_of_mem x hc)
      have hys : c ∉ ys := fun hc => h2 (List.mem_cons_of_mem y hc)
      obtain ⟨hl, hr⟩ := ih hxs hys htail
      exact ⟨by rw [hx, hl], hr⟩

/-! ## Evaluation lemmas for the integer and time model -/

theorem checkedMulI64_of_range {a b : Int} (h1 : -(2 ^ 63) ≤ a * b)
    (h2 : a * b ≤ 2 ^ 63 - 1) : checkedMulI64 a b = some (a * b) := by
  unfold checkedMulI64
  exact if_pos ⟨h1, h2⟩

theorem u64ToI64_of_lt {n : Nat} (h : n < 2 ^ 63) : u64ToI64 n = n := by
  have h64 : n < 2 ^ 64 := lt_trans h (by norm_num)
  unfold u64ToI64
  rw [Nat.mod_eq_of_lt h64, if_pos h]

theorem i64ToUsize_of_range {x : Int} (h0 : 0 ≤ x) (h1 : x < 2 ^ 64) :
    i64ToUsize x = x.toNat := by
  unfold i64ToUsize
  rw [Int.emod_eq_of_lt h0 h1]

theorem i64Wrap_of_range {x : Int} (h0 : -(2 ^ 63) ≤ x) (h1 : x < 2 ^ 63) :
    i64Wrap x = x := by
  have ha : (0 : Int) ≤ x + 2 ^ 63 := by linarith
  have hsum : ((2 : Int) ^ 63) + 2 ^ 63 = 2 ^ 64 := by norm_num
  have hb : x + 2 ^ 63 < 2 ^ 64 := by linarith
  unfold i64Wrap
  rw [Int.emod_eq_of_lt ha hb]
  ring

theorem durationHoursSecs_eval {n : Nat} (h63 : (n : Int) * 3600 ≤ 2 ^ 63 - 1)
    (hbound : (n : Int) * 3600 ≤ chronoSecsBound) :
    durationHoursSecs (u64ToI64 n) = some ((n : Int) * 3600) := by
  have hn : n < 2 ^ 63 := by
    by_contra hc
    push_neg at hc
    have h1 : ((2 : Int) ^ 63) ≤ (n : Int) := by exact_mod_cast hc
    have : ((2 : Int) ^ 63) * 3600 ≤ (n : Int) * 3600 := by nlinarith
    norm_num at this h63
    linarith
  have hpos : (0 : Int) ≤ (n : Int) * 3600 := by positivity
  have hA : -((2 : Int) ^ 63) ≤ (n : Int) * 3600 := by
    have : (0 : Int) ≤ 2 ^ 63 := by norm_num
    linarith
  have hB : -chronoSecsBound ≤ (n : Int) * 3600 := by
    have : (0 : Int) ≤ chronoSecsBound := by norm_num [chronoSecsBound]
    linarith
  rw [u64ToI64_of_lt hn]
  unfold durationHoursSecs
  rw [checkedMulI64_of_range hA h63]
  show (if -chronoSecsBound ≤ (n : Int) * 3600 ∧ (n : Int) * 3600 ≤ chronoSecsBound
      then some ((n : Int) * 3600) else none) = some ((n : Int) * 3600)
  rw [if_pos ⟨hB, hbound⟩]

theorem durationMinutesSecs_eval {n : Nat} (h63 : (n : Int) * 60 ≤ 2 ^ 63 - 1)
    (hbound : (n : Int) * 60 ≤ chronoSecsBound) :
    durationMinutesSecs (u64ToI64 n) = some ((n : Int) * 60) := by
  have hn : n < 2 ^ 63 := by
    by_contra hc
    push_neg at hc
    have h1 : ((2 : Int) ^ 63) ≤ (n : Int) := by exact_mod_cast hc
    have : ((2 : Int) ^ 63) * 60 ≤ (n : Int) * 60 := by nlinarith
    norm_num at this h63
    linarith
  have hpos : (0 : Int) ≤ (n : Int) * 60 := by positivity
  have hA : -((2 : Int) ^ 63) ≤ (n : Int) * 60 := by
    have : (0 : Int) ≤ 2 ^ 63 := by norm_num
    linarith
  have hB : -chronoSecsBound ≤ (n : Int) * 60 := by
    have : (0 : Int) ≤ chronoSecsBound := by norm_num [chronoSecsBound]
    linarith
  rw [u64ToI64_of_lt hn]
  unfold durationMinutesSecs
  rw [checkedMulI64_of_range hA h63]
  show (if -chronoSecsBound ≤ (n : Int) * 60 ∧ (n : Int) * 60 ≤ chronoSecsBound
      then some ((n : Int) * 60) else none) = some ((n : Int) * 60)
  rw [if_pos ⟨hB, hbound⟩]

theorem expiryTimestamp_eval {now s : Int} (h0 : 0 ≤ now) (hs : 0 ≤ s)
    (hmax : now + s ≤ chronoMaxTimestamp) :
    expiryTimestamp now (some s) = some ((now + s).toNat) := by
  have hmin : chronoMinTimestamp ≤ now + s := by
    have : (chronoMinTimestamp : Int) ≤ 0 := by norm_num [chronoMinTimestamp]
    linarith
  have hlt : now + s < 2 ^ 64 := by
    have : (chronoMaxTimestamp : Int) < 2 ^ 64 := by norm_num [chronoMaxTimestamp]
    linarith
  simp [expiryTimestamp, checkedAddSigned, hmin, hmax,
    i64ToUsize_of_range (by linarith) hlt]

/-! ## Claim theorems -/

/-- The three expiry computations run by `generate_tokens` before the kind
dispatch all succeed (no panic) for the given clock and auth section. -/
def expiryArithmeticSucceeds (clock : Nat → Int) (auth : AuthSection) : Prop :=
  (expiryTimestamp (clock 0)
    (durationHoursSecs (u64ToI64 auth.jwt_access_expiration_time_in_hours))).isSome = true ∧
  (expiryTimestamp (clock 1)
    (durationHoursSecs (u64ToI64 auth.jwt_refresh_expiration_time_in_hours))).isSome = true ∧
  (expiryTimestamp (clock 2)
    (durationMinutesSecs (u64ToI64 auth.jwt_one_time_password_lifetime_in_minutes))).isSome = true

/-- C10: for every kind string, user and config whose auth section is
absent, `generate_tokens` returns the typed error `MissingAuth` — it does
not panic and produces no tokens. -/
theorem generate_tokens_missing_auth (clock : Nat → Int)
    (d : String → String → String) (saltA saltB token_type : String)
    (user : User) (config : AppConfig) (h : config.auth = none) :
    generate_tokens clock d saltA saltB token_type user config =
      some (.error .MissingAuth) := by
  unfold generate_tokens
  rw [h]

theorem generate_tokens_missing_auth_witness :
    generate_tokens clockW dW "saltA" "saltB" "auth" userW cfgNoAuth =
      some (.error .MissingAuth) :=
  generate_tokens_missing_auth clockW dW "saltA" "saltB" "auth" userW cfgNoAuth rfl

/-- C1 counterexample: on a config whose auth section is present but whose
access expiry (10^15 hours) overflows the duration bound — a config that
passes startup validation — the expiry computations at the top of
`generate_tokens` panic before the kind dispatch is ever reached: an
invalid kind does not return `InvalidTokenType`, and kind `"auth"` does
not return `Ok`. -/
theorem generate_tokens_panics_before_kind_dispatch :
    cfgBigExpiry.auth = some authBigExpiry ∧
    AppConfig.validate cfgBigExpiry = .ok () ∧
    generate_tokens clockW dW "saltA" "saltB" "invalid" userW cfgBigExpiry = none ∧
    generate_tokens clockW dW "saltA" "saltB" "invalid" userW cfgBigExpiry ≠
      some (.error (.InvalidTokenType "invalid")) ∧
    generate_tokens clockW dW "saltA" "saltB" "auth" userW cfgBigExpiry = none := by
  refine ⟨rfl, by decide, by decide, by decide, by decide⟩

/-- C1 amended: whenever the auth section is present and the expiry
arithmetic does not panic, kind `"auth"` yields `Ok` with access token, refresh token
and auth cookie set and no OTP token; kind `"one_time_password"` yields
`Ok` with only the OTP token set; every other kind yields the error
`InvalidTokenType` carrying that kind; and no `Ok` result ever carries an
all-empty token set. -/
theorem generate_tokens_kind_dispatch
    (clock : Nat → Int) (d : String → String → String) (saltA saltB : String)
    (user : User) (config : AppConfig) (auth : AuthSection)
    (hauth : config.auth = some auth) (hok : expiryArithmeticSucceeds clock auth) :
    (∃ atk rtk ck, generate_tokens clock d saltA saltB "auth" user config =
        some (.ok ⟨some atk, some rtk, none, some ck⟩)) ∧
    (∃ otk, generate_tokens clock d saltA saltB "one_time_password" user config =
        some (.ok ⟨none, none, some otk, none⟩)) ∧
    (∀ kind, kind ≠ "auth" → kind ≠ "one_time_password" →
        generate_tokens clock d saltA saltB kind user config =
          some (.error (.InvalidTokenType kind))) ∧
    (∀ kind t, generate_tokens clock d saltA saltB kind user config = some (.ok t) →
        ¬(t.access_token = none ∧ t.refresh_token = none ∧
          t.one_time_password_token = none ∧ t.auth_cookie = none)) := by
  obtain ⟨h1, h2, h3⟩ := hok
  obtain ⟨e1, he1⟩ := Option.isSome_iff_exists.mp h1
  obtain ⟨e2, he2⟩ := Option.isSome_iff_exists.mp h2
  obtain ⟨e3, he3⟩ := Option.isSome_iff_exists.mp h3
  refine ⟨?_, ?_, ?_, ?_⟩
  · exact ⟨encodeJwt ⟨user.id, user.email, e1, i64ToUsize (clock 3)⟩ auth.jwt_secret,
      encodeJwt ⟨user.id, user.email, e2, i64ToUsize (clock 4)⟩ auth.jwt_secret,
      auth_cookie_value (phcRender saltA (d user.email saltA))
        (phcRender saltB (d auth.jwt_secret saltB)),
      by simp [generate_tokens, hauth, he1, he2, he3, hashingRun, hashing_handler, Comp.run]⟩
  · exact ⟨encodeJwt ⟨user.id, user.email, e3, i64ToUsize (clock 3)⟩ auth.jwt_secret,
      by simp [generate_tokens, hauth, he1, he2, he3]⟩
  · intro kind hk1 hk2
    simp [generate_tokens, hauth, he1, he2, he3, hk1, hk2]
  · intro kind t hgen hempty
    obtain ⟨ha, hb, hc, hd⟩ := hempty
    by_cases hk1 : kind = "auth"
    · subst hk1
      simp [generate_tokens, hauth, he1, he2, he3, hashingRun, hashing_handler,
        Comp.run] at hgen
      rw [← hgen] at ha
      simp at ha
    · by_cases hk2 : kind = "one_time_password"
      · subst hk2
        simp [generate_tokens, hauth, he1, he2, he3] at hgen
        rw [← hgen] at hc
        simp at hc
      · simp [generate_tokens, hauth, he1, he2, he3, hk1, hk2] at hgen

theorem generate_tokens_kind_dispatch_witness :
    (∃ atk rtk ck, generate_tokens clockW dW "saltA" "saltB" "auth" userW cfgW =
        some (.ok ⟨some atk, some rtk, none, some ck⟩)) ∧
    (∃ otk, generate_tokens clockW dW "saltA" "saltB" "one_time_password" userW cfgW =
        some (.ok ⟨none, none, some otk, none⟩)) ∧
    (∀ kind, kind ≠ "auth" → kind ≠ "one_time_password" →
        generate_tokens clockW dW "saltA" "saltB" kind userW cfgW =
          some (.error (.InvalidTokenType kind))) ∧
    (∀ kind t, generate_tokens clockW dW "saltA" "saltB" kind userW cfgW = some (.ok t) →
        ¬(t.access_token = none ∧ t.refresh_token = none ∧
          t.one_time_password_token = none ∧ t.auth_cookie = none)) :=
  generate_tokens_kind_dispatch clockW dW "saltA" "saltB" userW cfgW authW rfl
    ⟨by decide, by decide, by decide⟩

/-- C6 counterexample: `cfgBigExpiry` (access expiry `10^15` hours) passes
startup validation, yet the checked expiry arithmetic of `generate_tokens`
fails on it — overflow is not rejected at validation time. -/
theorem validate_accepts_config_with_overflowing_expiry :
    AppConfig.validate cfgBigExpiry = .ok () ∧
    cfgBigExpiry.auth = some authBigExpiry ∧
    (expiryTimestamp 1700000000
      (durationHoursSecs (u64ToI64 authBigExpiry.jwt_access_expiration_time_in_hours))).isSome
      = false := by
  refine ⟨by decide, rfl, by decide⟩

/-- C6 amended: startup validation does not examine the configured expiry
magnitudes; a validated config with a pathological expiry makes
`generate_tokens` panic (modelled `none`) on every request, for every
kind, user and clock. -/
theorem validated_config_can_panic_generate_tokens :
    AppConfig.validate cfgBigExpiry = .ok () ∧
    ∀ (clock : Nat → Int) (d : String → String → String)
      (saltA saltB kind : String) (user : User),
      generate_tokens clock d saltA saltB kind user cfgBigExpiry = none := by
  constructor
  · decide
  · intro clock d saltA saltB kind user
    have hd : durationHoursSecs
        (u64ToI64 authBigExpiry.jwt_access_expiration_time_in_hours) = none := by decide
    have hnone : expiryTimestamp (clock 0)
        (durationHoursSecs (u64ToI64 authBigExpiry.jwt_access_expiration_time_in_hours))
        = none := by rw [hd]; rfl
    simp [generate_tokens, cfgBigExpiry, hnone]

/-- C8 counterexample: `deploy_auth_cookie` fails (panics through
`.expect`) on a config whose auth section is absent — a failure caused by
the contents of the config, not by an unavailable cookie facility. -/
theorem deploy_auth_cookie_panics_on_missing_auth :
    (deploy_auth_cookie "abc" cfgNoAuth).isSome = false := by decide

/-- C8 amended: within the model (where the cookie-handling facility is
always available), `deploy_auth_cookie` succeeds exactly when the config's
auth section is present; the missing-auth panic is its only failure. -/
theorem deploy_auth_cookie_success_iff_auth_present
    (cookie_value : String) (config : AppConfig) :
    (deploy_auth_cookie cookie_value config).isSome = config.auth.isSome := by
  cases hc : config.auth <;> simp [deploy_auth_cookie, hc]

/-- C9 counterexample: it is not the case that both the hashing call and
the verification call dispatch their CPU work to the blocking worker pool
— the verification body contains no `spawn_blocking`. -/
theorem not_all_password_work_offloaded :
    ¬((hashing_handler dW "my_secure_password" "saltone").offloadsToBlockingPool = true ∧
      (verification_handler dW "my_secure_password" "stored").offloadsToBlockingPool = true) := by
  decide

/-- C9 amended: every password hashing call dispatches its CPU work to the
bounded blocking worker pool (`spawn_blocking`), but every password
verification call runs its Argon2 recomputation inline on the calling
async thread. -/
theorem hashing_offloaded_verification_inline
    (d : String → String → String) (p s stored : String) :
    (hashing_handler d p s).offloadsToBlockingPool = true ∧
    (verification_handler d p stored).offloadsToBlockingPool = false :=
  ⟨rfl, rfl⟩

/-- C7 counterexample: with the refresh expiry configured as `u64::MAX`
hours, the deployed cookie's `Max-Age` is the wrapped value `-3600`
seconds, not the configured hours converted to seconds. -/
theorem deploy_auth_cookie_max_age_wraps :
    ∃ c, deploy_auth_cookie "abc" cfgHugeRefresh = some c ∧
      c.max_age_secs = some (-3600) ∧
      c.max_age_secs ≠ some (((2 ^ 64 - 1 : Nat) : Int) * 3600) := by
  refine ⟨_, rfl, by decide, by decide⟩

/-- C7 amended: for every config whose auth section is present and whose
refresh expiry in seconds fits a signed 64-bit integer, the deployed
cookie has the fixed name, the given value, path `/`, `HttpOnly`,
`SameSite=Lax`, `Max-Age` equal to the refresh expiry in seconds, and
`Secure` true exactly when the environment flag differs from
`development` (in particular true when the flag is absent). -/
theorem deploy_auth_cookie_attributes
    (cookie_value : String) (config : AppConfig) (auth : AuthSection)
    (hauth : config.auth = some auth)
    (hfit : (auth.jwt_refresh_expiration_time_in_hours : Int) * 3600 ≤ 2 ^ 63 - 1) :
    ∃ c, deploy_auth_cookie cookie_value config = some c ∧
      c.name = "rusty_chat_auth_cookie" ∧
      c.value = cookie_value ∧
      c.path = some "/" ∧
      c.http_only = true ∧
      c.same_site = some .lax ∧
      c.max_age_secs = some ((auth.jwt_refresh_expiration_time_in_hours : Int) * 3600) ∧
      (config.app.environment = none → c.secure = true) ∧
      (∀ e, config.app.environment = some e → (c.secure = true ↔ e ≠ "development")) := by
  have hr63 : auth.jwt_refresh_expiration_time_in_hours < 2 ^ 63 := by
    by_contra hc
    push_neg at hc
    have h1 : ((2 : Int) ^ 63) ≤ (auth.jwt_refresh_expiration_time_in_hours : Int) := by
      exact_mod_cast hc
    nlinarith
  have hpos : (0 : Int) ≤ (auth.jwt_refresh_expiration_time_in_hours : Int) * 3600 := by
    positivity
  have hwrap : i64Wrap ((auth.jwt_refresh_expiration_time_in_hours : Int) * 3600) =
      (auth.jwt_refresh_expiration_time_in_hours : Int) * 3600 := by
    refine i64Wrap_of_range (by linarith [show (0:Int) ≤ 2 ^ 63 by norm_num]) ?_
    have : ((2 : Int) ^ 63 - 1) < 2 ^ 63 := by norm_num
    linarith
  refine ⟨_, by rw [deploy_auth_cookie, hauth], rfl, rfl, rfl, rfl, rfl, ?_, ?_, ?_⟩
  · show some (i64Wrap (u64ToI64 auth.jwt_refresh_expiration_time_in_hours * 3600)) = _
    rw [u64ToI64_of_lt hr63, hwrap]
  · intro he
    show (!(config.app.environment.getD "production" == "development")) = true
    rw [he]
    rfl
  · intro e he
    show (!(config.app.environment.getD "production" == "development")) = true ↔
      e ≠ "development"
    rw [he]
    show (!(e == "development")) = true ↔ e ≠ "development"
    cases heq : e == "development" with
    | false =>
      constructor
      · intro _ hc
        rw [hc] at heq
        simp at heq
      · intro _
        rfl
    | true =>
      constructor
      · intro hfalse
        exact Bool.noConfusion hfalse
      · intro hne
        exact absurd (eq_of_beq heq) hne

theorem deploy_auth_cookie_attributes_witness :
    ∃ c, deploy_auth_cookie "abc" cfgDev = some c ∧
      c.name = "rusty_chat_auth_cookie" ∧
      c.value = "abc" ∧
      c.path = some "/" ∧
      c.http_only = true ∧
      c.same_site = some .lax ∧
      c.max_age_secs = some ((authW.jwt_refresh_expiration_time_in_hours : Int) * 3600) ∧
      (cfgDev.app.environment = none → c.secure = true) ∧
      (∀ e, cfgDev.app.environment = some e → (c.secure = true ↔ e ≠ "development")) :=
  deploy_auth_cookie_attributes "abc" cfgDev authW rfl (by decide)

/-- C3: hashing the same input with two distinct fresh salts (whose
encodings, like the crate's base64, contain no `$`) yields two distinct
hash strings, and verifying the original input against either succeeds. -/
theorem hash_twice_distinct_and_verifiable
    (d : String → String → String) (pwd salt1 salt2 : String)
    (hs1 : '$' ∉ salt1.data) (hs2 : '$' ∉ salt2.data)
    (hd1 : '$' ∉ (d pwd salt1).data) (hd2 : '$' ∉ (d pwd salt2).data)
    (hfresh : salt1 ≠ salt2) :
    ∃ h1 h2, hashingRun d pwd salt1 = .ok h1 ∧ hashingRun d pwd salt2 = .ok h2 ∧
      h1 ≠ h2 ∧
      verificationRun d pwd h1 = .ok true ∧
      verificationRun d pwd h2 = .ok true := by
  refine ⟨phcRender salt1 (d pwd salt1), phcRender salt2 (d pwd salt2), rfl, rfl, ?_, ?_, ?_⟩
  · intro he
    have hp1 := parsePhc_phcRender hs1 hd1
    have hp2 := parsePhc_phcRender hs2 hd2
    rw [he, hp2] at hp1
    have := congrArg PhcHash.salt (Option.some.inj hp1)
    exact hfresh this.symm
  · unfold verificationRun verification_handler Comp.run
    rw [parsePhc_phcRender hs1 hd1]
    simp
  · unfold verificationRun verification_handler Comp.run
    rw [parsePhc_phcRender hs2 hd2]
    simp

theorem hash_twice_distinct_and_verifiable_witness :
    ∃ h1 h2, hashingRun dW "my_secure_password" "saltone" = .ok h1 ∧
      hashingRun dW "my_secure_password" "salttwo" = .ok h2 ∧
      h1 ≠ h2 ∧
      verificationRun dW "my_secure_password" h1 = .ok true ∧
      verificationRun dW "my_secure_password" h2 = .ok true :=
  hash_twice_distinct_and_verifiable dW "my_secure_password" "saltone" "salttwo"
    (by decide) (by decide) (by decide) (by decide) (by decide)

/-- C4: verification fails with the hash-format error exactly when the
stored hash fails to parse; a well-formed stored hash with a non-matching
digest yields `Ok false` (a normal outcome, not an error); and verifying a
plaintext against the hash of a different plaintext (whose digests under
the stored salt differ) yields `Ok false`. -/
theorem verification_handler_error_contract
    (d : String → String → String) (pwd stored : String) :
    ((∃ e, verificationRun d pwd stored = .error e) ↔ parsePhc stored = none) ∧
    (∀ p, parsePhc stored = some p → d pwd p.salt ≠ p.digest →
      verificationRun d pwd stored = .ok false) ∧
    (∀ (pw1 pw2 saltQ : String), '$' ∉ saltQ.data → '$' ∉ (d pw2 saltQ).data →
      d pw1 saltQ ≠ d pw2 saltQ →
      verificationRun d pw1 (phcRender saltQ (d pw2 saltQ)) = .ok false) := by
  refine ⟨?_, ?_, ?_⟩
  · cases hp : parsePhc stored with
    | none =>
      constructor
      · intro _; rfl
      · intro _
        refine ⟨.PhcStringInvalid, ?_⟩
        unfold verificationRun verification_handler Comp.run
        rw [hp]
    | some p =>
      constructor
      · rintro ⟨e, he⟩
        unfold verificationRun verification_handler Comp.run at he
        rw [hp] at he
        exact Except.noConfusion he
      · intro h
        exact Option.noConfusion h
  · intro p hp hne
    unfold verificationRun verification_handler Comp.run
    rw [hp]
    show Except.ok (p.alg == "argon2id" && d pwd p.salt == p.digest) = Except.ok false
    have hb : (d pwd p.salt == p.digest) = false := beq_eq_false_iff_ne.mpr hne
    rw [hb, Bool.and_false]
  · intro pw1 pw2 saltQ hsQ hdQ hne
    unfold verificationRun verification_handler Comp.run
    rw [parsePhc_phcRender hsQ hdQ]
    show Except.ok (("argon2id" : String) == "argon2id" && d pw1 saltQ == d pw2 saltQ) =
      Except.ok false
    have hb : (d pw1 saltQ == d pw2 saltQ) = false := beq_eq_false_iff_ne.mpr hne
    rw [hb, Bool.and_false]

theorem verification_handler_error_contract_witness :
    verificationRun dW "wrong" (phcRender "saltone" (dW "right" "saltone")) = .ok false ∧
    parsePhc "garbage" = none ∧
    (∃ e, verificationRun dW "xyz" "garbage" = .error e) := by
  refine ⟨?_, by decide, ?_⟩
  · exact (verification_handler_error_contract dW "wrong" "unused").2.2
      "wrong" "right" "saltone" (by decide) (by decide) (by decide)
  · exact (verification_handler_error_contract dW "xyz" "garbage").1.mpr (by decide)

/-! ## Auxiliary cookie lemmas -/

theorem char_not_mem_append {c : Char} {l1 l2 : List Char}
    (h1 : c ∉ l1) (h2 : c ∉ l2) : c ∉ l1 ++ l2 :=
  fun h => (List.mem_append.mp h).elim h1 h2

theorem char_not_mem_cons {c x : Char} {l : List Char}
    (h1 : c ≠ x) (h2 : c ∉ l) : c ∉ x :: l := by
  intro h
  rcases List.mem_cons.mp h with h | h
  · exact h1 h
  · exact h2 h

/-- A rendered PHC hash string contains no underscore as long as its salt
and digest encodings contain none (true of the crate's base64 alphabet). -/
theorem underscore_not_mem_phcRender {salt digest : String}
    (hs : '_' ∉ salt.data) (hd : '_' ∉ digest.data) :
    '_' ∉ (phcRender salt digest).data := by
  rw [phcRender_data]
  exact char_not_mem_cons (by decide) (char_not_mem_append (by decide)
    (char_not_mem_cons (by decide) (char_not_mem_append (by decide)
    (char_not_mem_cons (by decide) (char_not_mem_append (by decide)
    (char_not_mem_cons (by decide) (char_not_mem_append hs
    (char_not_mem_cons (by decide) hd))))))))

/-- The first hash half of an auth cookie value is determined by the
cookie string, provided neither candidate half contains the delimiter
character `_`. -/
theorem auth_cookie_value_inj_first {a a' b b' : String}
    (ha : '_' ∉ a.data) (ha' : '_' ∉ a'.data)
    (he : auth_cookie_value a b = auth_cookie_value a' b') : a = a' := by
  have hd := congrArg String.data he
  simp only [auth_cookie_value, String.data_append, List.append_assoc] at hd
  have hc := List.append_cancel_left hd
  have hsh : ∀ x : List Char, "____".data ++ x = '_' :: ('_' :: '_' :: '_' :: x) :=
    fun _ => rfl
  rw [hsh, hsh] at hc
  exact string_data_inj (append_sep_inj ha ha' hc).1

/-- The exact shape of a successful `"auth"`-kind invocation. -/
theorem generate_tokens_auth_eq
    (clock : Nat → Int) (d : String → String → String) (saltA saltB : String)
    (user : User) (config : AppConfig) (auth : AuthSection)
    (hauth : config.auth = some auth) (hok : expiryArithmeticSucceeds clock auth) :
    ∃ e1 e2, generate_tokens clock d saltA saltB "auth" user config =
      some (.ok ⟨
        some (encodeJwt ⟨user.id, user.email, e1, i64ToUsize (clock 3)⟩ auth.jwt_secret),
        some (encodeJwt ⟨user.id, user.email, e2, i64ToUsize (clock 4)⟩ auth.jwt_secret),
        none,
        some (auth_cookie_value (phcRender saltA (d user.email saltA))
          (phcRender saltB (d auth.jwt_secret saltB)))⟩) := by
  obtain ⟨h1, h2, h3⟩ := hok
  obtain ⟨e1, he1⟩ := Option.isSome_iff_exists.mp h1
  obtain ⟨e2, he2⟩ := Option.isSome_iff_exists.mp h2
  obtain ⟨e3, he3⟩ := Option.isSome_iff_exists.mp h3
  exact ⟨e1, e2,
    by simp [generate_tokens, hauth, he1, he2, he3, hashingRun, hashing_handler, Comp.run]⟩

/-- C5: the auth cookie produced by `generate_tokens` is the fixed prefix
tag followed by the freshly salted hash of the email, the fixed delimiter,
and the freshly salted hash of the secret; it is non-empty, carries the
fixed prefix and delimiter, and two calls whose first-half salts differ
(with delimiter-free, `$`-free encodings) produce different values. -/
theorem auth_cookie_derivation
    (clock : Nat → Int) (d : String → String → String) (saltA saltB : String)
    (user : User) (config : AppConfig) (auth : AuthSection)
    (hauth : config.auth = some auth) (hok : expiryArithmeticSucceeds clock auth) :
    ∃ atk rtk ck, generate_tokens clock d saltA saltB "auth" user config =
        some (.ok ⟨some atk, some rtk, none, some ck⟩) ∧
      ck = "rusty_chat____" ++ phcRender saltA (d user.email saltA) ++ "____" ++
        phcRender saltB (d auth.jwt_secret saltB) ∧
      ck ≠ "" ∧
      (∃ rest, ck = "rusty_chat____" ++ rest) ∧
      (∃ x y, ck = x ++ "____" ++ y) ∧
      (∀ saltA' saltB' atk' rtk' ck',
        generate_tokens clock d saltA' saltB' "auth" user config =
          some (.ok ⟨some atk', some rtk', none, some ck'⟩) →
        saltA ≠ saltA' →
        '$' ∉ saltA.data → '$' ∉ saltA'.data →
        '$' ∉ (d user.email saltA).data → '$' ∉ (d user.email saltA').data →
        '_' ∉ saltA.data → '_' ∉ saltA'.data →
        '_' ∉ (d user.email saltA).data → '_' ∉ (d user.email saltA').data →
        ck ≠ ck') := by
  obtain ⟨e1, e2, hgen⟩ := generate_tokens_auth_eq clock d saltA saltB user config auth hauth hok
  refine ⟨_, _, _, hgen, rfl, ?_, ?_, ?_, ?_⟩
  · intro h
    have hd' := congrArg String.data h
    simp only [auth_cookie_value, String.data_append] at hd'
    obtain ⟨h2, _⟩ := List.append_eq_nil.mp hd'
    obtain ⟨h3, _⟩ := List.append_eq_nil.mp h2
    obtain ⟨h4, _⟩ := List.append_eq_nil.mp h3
    exact absurd h4 (by decide)
  · refine ⟨phcRender saltA (d user.email saltA) ++ ("____" ++
      phcRender saltB (d auth.jwt_secret saltB)), ?_⟩
    apply string_data_inj
    simp [auth_cookie_value, String.data_append, List.append_assoc]
  · exact ⟨"rusty_chat____" ++ phcRender saltA (d user.email saltA),
      phcRender saltB (d auth.jwt_secret saltB), rfl⟩
  · intro saltA' saltB' atk' rtk' ck' hgen' hfresh hdolA hdolA' hdoldA hdoldA'
      hunA hunA' hundA hundA' hckeq
    obtain ⟨f1, f2, hgen2⟩ :=
      generate_tokens_auth_eq clock d saltA' saltB' user config auth hauth hok
    rw [hgen2] at hgen'
    simp only [Option.some.injEq, Except.ok.injEq, Tokens.mk.injEq] at hgen'
    obtain ⟨-, -, -, hce⟩ := hgen'
    rw [← hce] at hckeq
    have haa' : phcRender saltA (d user.email saltA) =
        phcRender saltA' (d user.email saltA') :=
      auth_cookie_value_inj_first (underscore_not_mem_phcRender hunA hundA)
        (underscore_not_mem_phcRender hunA' hundA') hckeq
    have hp1 := parsePhc_phcRender hdolA hdoldA
    have hp2 := parsePhc_phcRender hdolA' hdoldA'
    rw [haa', hp2] at hp1
    have hsalt := congrArg PhcHash.salt (Option.some.inj hp1)
    exact hfresh hsalt.symm

theorem auth_cookie_derivation_witness :
    ∃ atk rtk ck, generate_tokens clockW dW "saltone" "salttwo" "auth" userW cfgW =
        some (.ok ⟨some atk, some rtk, none, some ck⟩) ∧
      ck = "rusty_chat____" ++ phcRender "saltone" (dW userW.email "saltone") ++ "____" ++
        phcRender "salttwo" (dW authW.jwt_secret "salttwo") ∧
      ck ≠ "" ∧
      (∃ rest, ck = "rusty_chat____" ++ rest) ∧
      (∃ x y, ck = x ++ "____" ++ y) ∧
      (∀ saltA' saltB' atk' rtk' ck',
        generate_tokens clockW dW saltA' saltB' "auth" userW cfgW =
          some (.ok ⟨some atk', some rtk', none, some ck'⟩) →
        "saltone" ≠ saltA' →
        '$' ∉ "saltone".data → '$' ∉ saltA'.data →
        '$' ∉ (dW userW.email "saltone").data → '$' ∉ (dW userW.email saltA').data →
        '_' ∉ "saltone".data → '_' ∉ saltA'.data →
        '_' ∉ (dW userW.email "saltone").data → '_' ∉ (dW userW.email saltA').data →
        ck ≠ ck') :=
  auth_cookie_derivation clockW dW "saltone" "salttwo" userW cfgW authW rfl
    ⟨by decide, by decide, by decide⟩

/-- C2 counterexample: with the access expiry configured as `u64::MAX`
hours, `generate_tokens` succeeds, but the decoded access token has
`exp - iat = -3600` seconds — not the configured expiry in seconds, and
far outside the ±1 s tolerance — because the `u64 → i64` cast wraps. -/
theorem access_token_exp_wraps_at_u64_max :
    ∃ atk rtk ck ca,
      generate_tokens clockW dW "saltA" "saltB" "auth" userW cfgWrapAccess =
        some (.ok ⟨some atk, some rtk, none, some ck⟩) ∧
      decodeJwt "test_secret" atk = some ca ∧
      ca.exp = 1699996400 ∧
      ca.iat = 1700000000 ∧
      ¬(((ca.exp : Int) - (ca.iat : Int) -
          ((2 ^ 64 - 1 : Nat) : Int) * 3600).natAbs ≤ 1) := by
  refine ⟨encodeJwt ⟨1, "test@example.com", 1699996400, 1700000000⟩ "test_secret",
    encodeJwt ⟨1, "test@example.com", 1700086400, 1700000000⟩ "test_secret",
    auth_cookie_value (phcRender "saltA" (dW "test@example.com" "saltA"))
      (phcRender "saltB" (dW "test_secret" "saltB")),
    ⟨1, "test@example.com", 1699996400, 1700000000⟩,
    by decide, by decide, rfl, rfl, by decide⟩

/-- C2 amended: whenever the auth section is present, the configured
expiries (in seconds) stay within the duration bound, the clock readings
are monotone with at most 1 s of total drift, and the timestamp additions
stay in range, each generated token decodes under the configured secret to
the input user's id and email, with `iat` equal to its issuance instant
and `exp - iat` within ±1 s of the configured expiry in seconds. -/
theorem generate_tokens_claims_roundtrip
    (clock : Nat → Int) (d : String → String → String) (saltA saltB : String)
    (user : User) (config : AppConfig) (auth : AuthSection)
    (hauth : config.auth = some auth)
    (hAfit : (auth.jwt_access_expiration_time_in_hours : Int) * 3600 ≤ chronoSecsBound)
    (hRfit : (auth.jwt_refresh_expiration_time_in_hours : Int) * 3600 ≤ chronoSecsBound)
    (hOfit : (auth.jwt_one_time_password_lifetime_in_minutes : Int) * 60 ≤ chronoSecsBound)
    (hc0 : 0 ≤ clock 0)
    (h01 : clock 0 ≤ clock 1) (h12 : clock 1 ≤ clock 2) (h23 : clock 2 ≤ clock 3)
    (h34 : clock 3 ≤ clock 4) (hdrift : clock 4 ≤ clock 0 + 1)
    (hAmax : clock 0 + (auth.jwt_access_expiration_time_in_hours : Int) * 3600 ≤
      chronoMaxTimestamp)
    (hRmax : clock 1 + (auth.jwt_refresh_expiration_time_in_hours : Int) * 3600 ≤
      chronoMaxTimestamp)
    (hOmax : clock 2 + (auth.jwt_one_time_password_lifetime_in_minutes : Int) * 60 ≤
      chronoMaxTimestamp)
    (hclk : clock 4 ≤ chronoMaxTimestamp) :
    ∃ atk rtk otk ck ca cr co,
      generate_tokens clock d saltA saltB "auth" user config =
        some (.ok ⟨some atk, some rtk, none, some ck⟩) ∧
      generate_tokens clock d saltA saltB "one_time_password" user config =
        some (.ok ⟨none, none, some otk, none⟩) ∧
      decodeJwt auth.jwt_secret atk = some ca ∧
      decodeJwt auth.jwt_secret rtk = some cr ∧
      decodeJwt auth.jwt_secret otk = some co ∧
      ca.id = user.id ∧ ca.email = user.email ∧
      cr.id = user.id ∧ cr.email = user.email ∧
      co.id = user.id ∧ co.email = user.email ∧
      (ca.iat : Int) = clock 3 ∧ (cr.iat : Int) = clock 4 ∧ (co.iat : Int) = clock 3 ∧
      ((ca.exp : Int) - (ca.iat : Int) -
        (auth.jwt_access_expiration_time_in_hours : Int) * 3600).natAbs ≤ 1 ∧
      ((cr.exp : Int) - (cr.iat : Int) -
        (auth.jwt_refresh_expiration_time_in_hours : Int) * 3600).natAbs ≤ 1 ∧
      ((co.exp : Int) - (co.iat : Int) -
        (auth.jwt_one_time_password_lifetime_in_minutes : Int) * 60).natAbs ≤ 1 := by
  have hcb : chronoSecsBound ≤ 2 ^ 63 - 1 := by norm_num [chronoSecsBound]
  have hdA := durationHoursSecs_eval (le_trans hAfit hcb) hAfit
  have hdR := durationHoursSecs_eval (le_trans hRfit hcb) hRfit
  have hdO := durationMinutesSecs_eval (le_trans hOfit hcb) hOfit
  have hApos : (0 : Int) ≤ (auth.jwt_access_expiration_time_in_hours : Int) * 3600 :=
    mul_nonneg (Int.natCast_nonneg _) (by norm_num)
  have hRpos : (0 : Int) ≤ (auth.jwt_refresh_expiration_time_in_hours : Int) * 3600 :=
    mul_nonneg (Int.natCast_nonneg _) (by norm_num)
  have hOpos : (0 : Int) ≤ (auth.jwt_one_time_password_lifetime_in_minutes : Int) * 60 :=
    mul_nonneg (Int.natCast_nonneg _) (by norm_num)
  have hc1 : (0 : Int) ≤ clock 1 := le_trans hc0 h01
  have hc2 : (0 : Int) ≤ clock 2 := le_trans hc1 h12
  have hc3 : (0 : Int) ≤ clock 3 := le_trans hc2 h23
  have hc4 : (0 : Int) ≤ clock 4 := le_trans hc3 h34
  have he1 : expiryTimestamp (clock 0)
      (durationHoursSecs (u64ToI64 auth.jwt_access_expiration_time_in_hours)) =
      some ((clock 0 + (auth.jwt_access_expiration_time_in_hours : Int) * 3600).toNat) := by
    rw [hdA]
    exact expiryTimestamp_eval hc0 hApos hAmax
  have he2 : expiryTimestamp (clock 1)
      (durationHoursSecs (u64ToI64 auth.jwt_refresh_expiration_time_in_hours)) =
      some ((clock 1 + (auth.jwt_refresh_expiration_time_in_hours : Int) * 3600).toNat) := by
    rw [hdR]
    exact expiryTimestamp_eval hc1 hRpos hRmax
  have he3 : expiryTimestamp (clock 2)
      (durationMinutesSecs (u64ToI64 auth.jwt_one_time_password_lifetime_in_minutes)) =
      some ((clock 2 + (auth.jwt_one_time_password_lifetime_in_minutes : Int) * 60).toNat) := by
    rw [hdO]
    exact expiryTimestamp_eval hc2 hOpos hOmax
  have hlt4 : clock 4 < 2 ^ 64 :=
    lt_of_le_of_lt hclk (by norm_num [chronoMaxTimestamp])
  have hlt3 : clock 3 < 2 ^ 64 := lt_of_le_of_lt h34 hlt4
  have hi3 : i64ToUsize (clock 3) = (clock 3).toNat := i64ToUsize_of_range hc3 hlt3
  have hi4 : i64ToUsize (clock 4) = (clock 4).toNat := i64ToUsize_of_range hc4 hlt4
  have hm03 : clock 0 ≤ clock 3 := le_trans h01 (le_trans h12 h23)
  have hm13 : clock 1 ≤ clock 4 := le_trans h12 (le_trans h23 h34)
  have hm23' : clock 2 ≤ clock 3 := h23
  have hd3 : clock 3 ≤ clock 0 + 1 := le_trans h34 hdrift
  have hd4 : clock 4 ≤ clock 1 + 1 := le_trans hdrift (by linarith)
  have hd3' : clock 3 ≤ clock 2 + 1 := le_trans hd3 (by linarith)
  refine ⟨encodeJwt ⟨user.id, user.email,
      (clock 0 + (auth.jwt_access_expiration_time_in_hours : Int) * 3600).toNat,
      (clock 3).toNat⟩ auth.jwt_secret,
    encodeJwt ⟨user.id, user.email,
      (clock 1 + (auth.jwt_refresh_expiration_time_in_hours : Int) * 3600).toNat,
      (clock 4).toNat⟩ auth.jwt_secret,
    encodeJwt ⟨user.id, user.email,
      (clock 2 + (auth.jwt_one_time_password_lifetime_in_minutes : Int) * 60).toNat,
      (clock 3).toNat⟩ auth.jwt_secret,
    auth_cookie_value (phcRender saltA (d user.email saltA))
      (phcRender saltB (d auth.jwt_secret saltB)),
    ⟨user.id, user.email,
      (clock 0 + (auth.jwt_access_expiration_time_in_hours : Int) * 3600).toNat,
      (clock 3).toNat⟩,
    ⟨user.id, user.email,
      (clock 1 + (auth.jwt_refresh_expiration_time_in_hours : Int) * 3600).toNat,
      (clock 4).toNat⟩,
    ⟨user.id, user.email,
      (clock 2 + (auth.jwt_one_time_password_lifetime_in_minutes : Int) * 60).toNat,
      (clock 3).toNat⟩,
    ?_, ?_, ?_, ?_, ?_, rfl, rfl, rfl, rfl, rfl, rfl, ?_, ?_, ?_, ?_, ?_, ?_⟩
  · simp [generate_tokens, hauth, he1, he2, he3, hi3, hi4, hashingRun, hashing_handler,
      Comp.run]
  · simp [generate_tokens, hauth, he1, he2, he3, hi3]
  · simp [decodeJwt, encodeJwt]
  · simp [decodeJwt, encodeJwt]
  · simp [decodeJwt, encodeJwt]
  · exact Int.toNat_of_nonneg hc3
  · exact Int.toNat_of_nonneg hc4
  · exact Int.toNat_of_nonneg hc3
  · rw [Int.toNat_of_nonneg (by linarith), Int.toNat_of_nonneg hc3]
    omega
  · rw [Int.toNat_of_nonneg (by linarith), Int.toNat_of_nonneg hc4]
    omega
  · rw [Int.toNat_of_nonneg (by linarith), Int.toNat_of_nonneg hc3]
    omega

theorem generate_tokens_claims_roundtrip_witness :
    ∃ atk rtk otk ck ca cr co,
      generate_tokens clockW dW "saltA" "saltB" "auth" userW cfgW =
        some (.ok ⟨some atk, some rtk, none, some ck⟩) ∧
      generate_tokens clockW dW "saltA" "saltB" "one_time_password" userW cfgW =
        some (.ok ⟨none, none, some otk, none⟩) ∧
      decodeJwt authW.jwt_secret atk = some ca ∧
      decodeJwt authW.jwt_secret rtk = some cr ∧
      decodeJwt authW.jwt_secret otk = some co ∧
      ca.id = userW.id ∧ ca.email = userW.email ∧
      cr.id = userW.id ∧ cr.email = userW.email ∧
      co.id = userW.id ∧ co.email = userW.email ∧
      (ca.iat : Int) = clockW 3 ∧ (cr.iat : Int) = clockW 4 ∧ (co.iat : Int) = clockW 3 ∧
      ((ca.exp : Int) - (ca.iat : Int) -
        (authW.jwt_access_expiration_time_in_hours : Int) * 3600).natAbs ≤ 1 ∧
      ((cr.exp : Int) - (cr.iat : Int) -
        (authW.jwt_refresh_expiration_time_in_hours : Int) * 3600).natAbs ≤ 1 ∧
      ((co.exp : Int) - (co.iat : Int) -
        (authW.jwt_one_time_password_lifetime_in_minutes : Int) * 60).natAbs ≤ 1 :=
  generate_tokens_claims_roundtrip clockW dW "saltA" "saltB" userW cfgW authW rfl
    (by decide) (by decide) (by decide) (by decide) (by decide) (by decide) (by decide)
    (by decide) (by decide) (by decide) (by decide) (by decide) (by decide)
